import Mathlib

/-! Shallow embedding of the ridefront booking lifecycle
(src/rideshare/app/api/v1/endpoints/bookings.py) and of the geospatial
proximity code (src/rideshare/app/api/v1/endpoints/unified_rides.py,
src/app/services/websocket_service.py).  Firestore documents are modelled
as records held in association lists keyed by their identifier fields;
The auto-generated Firestore booking ids are modelled by a counter carried
in the store.  Server timestamps are omitted. -/

/-- Booking lifecycle status, the possible values of the stored status field. -/
inductive BStatus
| pending
| accepted
| rejected
| cancelled
deriving DecidableEq

/-- Error taxonomy of the booking endpoints; each constructor stands for one
family of HTTPException raise sites in bookings.py (404 not found, 403
forbidden, 400 self-booking or duplicate booking, 400 not enough seats,
400 non-transitionable status, 400 unrecognized action, 422 request
validation). -/
inductive BErr
| NotFound
| Forbidden
| Conflict
| CapacityExceeded
| InvalidState
| InvalidAction
| Validation
deriving DecidableEq

/-- Ride document fields read by the booking endpoints. -/
structure Ride where
  ride_id : String
  driver_id : String
  seats_available : Int
deriving DecidableEq

/-- User document fields read by the booking endpoints. -/
structure User where
  user_id : String
  name : String
deriving DecidableEq

/-- Booking document, as written by create_booking and mutated by
handle_booking_action. -/
structure Booking where
  booking_id : Nat
  ride_id : String
  passenger_id : String
  driver_id : String
  seats_booked : Int
  status : BStatus
  passenger_name : String
  passenger_message : Option String
  driver_message : Option String
  cancellation_message : Option String
  cancelled_by : Option String
deriving DecidableEq

/-- Notification document fields relevant to the booking flows: recipient,
type tag, the triggering booking and ride ids, and the cancelling actor
embedded in the payload of a booking_cancelled notification. -/
structure Notif where
  user_id : String
  ntype : String
  booking_id : Nat
  ride_id : String
  cancelled_by : Option String
deriving DecidableEq

/-- The document store: the collections touched by the booking endpoints,
plus a counter modelling the unique auto-generated Firestore document ids. -/
structure DB where
  rides : List Ride
  bookings : List Booking
  users : List User
  notifications : List Notif
  nextId : Nat
deriving DecidableEq

/-- Lookup of a ride document by id. -/
def findRide (rs : List Ride) (rid : String) : Option Ride :=
  rs.find? (fun r => r.ride_id = rid)

/-- Lookup of a booking document by id. -/
def findBooking (bs : List Booking) (bid : Nat) : Option Booking :=
  bs.find? (fun b => b.booking_id = bid)

/-- Lookup of a user document by id. -/
def findUser (us : List User) (uid : String) : Option User :=
  us.find? (fun u => u.user_id = uid)

/-- The ride_ref.update call on the seats_available field. -/
def updRideSeats (rs : List Ride) (rid : String) (s : Int) : List Ride :=
  rs.map (fun r => if r.ride_id = rid then { r with seats_available := s } else r)

/-- The booking_ref.update call: apply a field update to the booking with
the given id. -/
def updBooking (bs : List Booking) (bid : Nat) (f : Booking → Booking) : List Booking :=
  bs.map (fun b => if b.booking_id = bid then f b else b)

/-- The duplicate-booking query of create_booking: ride_id AND passenger_id
AND status in [pending, accepted]. -/
def hasActiveBooking (bs : List Booking) (rid pid : String) : Bool :=
  bs.any (fun b =>
    b.ride_id = rid ∧ b.passenger_id = pid ∧ (b.status = .pending ∨ b.status = .accepted))

/-- Translation of create_booking (bookings.py lines 33 to 158), after
request validation: ride lookup, self-booking check, advisory seat check,
duplicate-booking check, passenger lookup, then insertion of a pending
booking and of a booking_request notification to the driver.  The ride
document is never written. -/
def create_booking (db : DB) (ride_id passenger_id : String) (seats_requested : Int)
    (message : Option String) : Except BErr (DB × Booking) :=
  match findRide db.rides ride_id with
  | none => .error .NotFound
  | some ride =>
    if ride.driver_id = passenger_id then .error .Conflict
    else if ride.seats_available < seats_requested then .error .CapacityExceeded
    else if hasActiveBooking db.bookings ride_id passenger_id then .error .Conflict
    else
      match findUser db.users passenger_id with
      | none => .error .NotFound
      | some passenger =>
        let booking : Booking :=
          { booking_id := db.nextId
            ride_id := ride_id
            passenger_id := passenger_id
            driver_id := ride.driver_id
            seats_booked := seats_requested
            status := .pending
            passenger_name := passenger.name
            passenger_message := message
            driver_message := none
            cancellation_message := none
            cancelled_by := none }
        let notif : Notif :=
          { user_id := ride.driver_id
            ntype := "booking_request"
            booking_id := db.nextId
            ride_id := ride_id
            cancelled_by := none }
        .ok ({ db with
                bookings := db.bookings ++ [booking]
                notifications := db.notifications ++ [notif]
                nextId := db.nextId + 1 }, booking)

/-- The POST endpoint including the BookingCreate model validation
(seats_requested defaults to 1, with ge=1 and le=8). -/
def create_booking_endpoint (db : DB) (ride_id passenger_id : String) (seats_requested : Int)
    (message : Option String) : Except BErr (DB × Booking) :=
  if 1 ≤ seats_requested ∧ seats_requested ≤ 8 then
    create_booking db ride_id passenger_id seats_requested message
  else .error .Validation

/-- The accept arm of handle_booking_action (bookings.py lines 240 to 321).
The source guards the ride seat update behind the ride_doc.exists test and
still updates the booking to accepted when the ride document is absent. -/
def acceptBranch (db : DB) (bid : Nat) (bk : Booking) (actor_id : String)
    (message : Option String) : Except BErr (DB × BStatus) :=
  if actor_id ≠ bk.driver_id then .error .Forbidden
  else if bk.status ≠ .pending then .error .InvalidState
  else
    let notif : Notif :=
      { user_id := bk.passenger_id
        ntype := "booking_accepted"
        booking_id := bid
        ride_id := bk.ride_id
        cancelled_by := none }
    let upd : Booking → Booking :=
      fun b => { b with status := .accepted, driver_message := message }
    match findRide db.rides bk.ride_id with
    | some ride =>
      let new_available_seats := ride.seats_available - bk.seats_booked
      if new_available_seats < 0 then .error .CapacityExceeded
      else
        .ok ({ db with
                rides := updRideSeats db.rides bk.ride_id new_available_seats
                bookings := updBooking db.bookings bid upd
                notifications := db.notifications ++ [notif] }, .accepted)
    | none =>
      .ok ({ db with
              bookings := updBooking db.bookings bid upd
              notifications := db.notifications ++ [notif] }, .accepted)

/-- The reject arm of handle_booking_action (bookings.py lines 323 to 378). -/
def rejectBranch (db : DB) (bid : Nat) (bk : Booking) (actor_id : String)
    (message : Option String) : Except BErr (DB × BStatus) :=
  if actor_id ≠ bk.driver_id then .error .Forbidden
  else if bk.status ≠ .pending then .error .InvalidState
  else
    .ok ({ db with
            bookings := updBooking db.bookings bid
              (fun b => { b with status := .rejected, driver_message := message })
            notifications := db.notifications ++
              [{ user_id := bk.passenger_id
                 ntype := "booking_rejected"
                 booking_id := bid
                 ride_id := bk.ride_id
                 cancelled_by := none }] }, .rejected)

/-- The cancel arm of handle_booking_action (bookings.py lines 380 to 453).
Seats are returned only when the booking was accepted and only when the
ride document exists; the booking update and the notification to the
counter-party always happen. -/
def cancelBranch (db : DB) (bid : Nat) (bk : Booking) (actor_id : String)
    (message : Option String) : Except BErr (DB × BStatus) :=
  if actor_id ≠ bk.driver_id ∧ actor_id ≠ bk.passenger_id then .error .Forbidden
  else
    let rides1 :=
      if bk.status = .accepted then
        match findRide db.rides bk.ride_id with
        | some ride => updRideSeats db.rides bk.ride_id (ride.seats_available + bk.seats_booked)
        | none => db.rides
      else db.rides
    let notify_user_id := if actor_id = bk.passenger_id then bk.driver_id else bk.passenger_id
    .ok ({ db with
            rides := rides1
            bookings := updBooking db.bookings bid
              (fun b => { b with
                            status := .cancelled
                            cancelled_by := some actor_id
                            cancellation_message := message })
            notifications := db.notifications ++
              [{ user_id := notify_user_id
                 ntype := "booking_cancelled"
                 booking_id := bid
                 ride_id := bk.ride_id
                 cancelled_by := some actor_id }] }, .cancelled)

/-- ASCII lowercasing of the action token, the action_data.action.lower()
call. -/
def strLower (s : String) : String := String.mk (s.data.map Char.toLower)

/-- Translation of handle_booking_action (bookings.py lines 204 to 467):
booking lookup, the transitionable-status gate, then dispatch on the
lowercased action token. -/
def handle_booking_action (db : DB) (booking_id : Nat) (action : String) (actor_id : String)
    (message : Option String) : Except BErr (DB × BStatus) :=
  match findBooking db.bookings booking_id with
  | none => .error .NotFound
  | some bk =>
    let act := strLower action
    if bk.status ≠ .pending ∧ bk.status ≠ .accepted then .error .InvalidState
    else if act = "accept" then acceptBranch db booking_id bk actor_id message
    else if act = "reject" then rejectBranch db booking_id bk actor_id message
    else if act = "cancel" then cancelBranch db booking_id bk actor_id message
    else .error .InvalidAction

deriving instance DecidableEq for Except

/-- One externally triggered booking operation. -/
inductive Op
| create (ride_id passenger_id : String) (seats_requested : Int) (message : Option String)
| act (booking_id : Nat) (action : String) (actor_id : String) (message : Option String)

/-- Apply one operation to the store; an HTTP error leaves the store
unchanged, since in the source every raise precedes every write of the
failing request. -/
def applyOp (db : DB) : Op → DB
| .create rid pid s m =>
  match create_booking_endpoint db rid pid s m with
  | .ok (db1, _) => db1
  | .error _ => db
| .act bid a actor m =>
  match handle_booking_action db bid a actor m with
  | .ok (db1, _) => db1
  | .error _ => db

/-- Run a sequence of booking operations. -/
def runOps (db : DB) (ops : List Op) : DB := ops.foldl applyOp db

/-- Seat contribution of one booking towards a ride: its seat count when it
is an accepted booking of that ride, zero otherwise. -/
def contrib (rid : String) (b : Booking) : Int :=
  if b.ride_id = rid ∧ b.status = .accepted then b.seats_booked else 0

/-- Total seats currently held by accepted bookings of a ride. -/
def seatSum (rid : String) (bs : List Booking) : Int :=
  (bs.map (contrib rid)).sum

/-- Current seats_available of a ride document, when it exists. -/
def rideSeats (db : DB) (rid : String) : Option Int :=
  (findRide db.rides rid).map (fun r => r.seats_available)

/-- Current status of a booking document, when it exists. -/
def bookingStatus (db : DB) (bid : Nat) : Option BStatus :=
  (findBooking db.bookings bid).map (fun b => b.status)

/-- Store well-formedness: ride ids are distinct, booking ids are distinct
and below the id counter, and every stored booking asks for at least one
seat (guaranteed at intake by the BookingCreate validation). -/
def WF (db : DB) : Prop :=
  db.rides.Pairwise (fun r s => r.ride_id ≠ s.ride_id) ∧
  db.bookings.Pairwise (fun a b => a.booking_id ≠ b.booking_id) ∧
  (∀ b ∈ db.bookings, b.booking_id < db.nextId) ∧
  (∀ b ∈ db.bookings, 1 ≤ b.seats_booked)

/-- Seat accounting invariant relative to the capacity map: the seats_available of every ride is non-negative and, together with the seats held by its
accepted bookings, equals the initial capacity of the ride. -/
def SeatInv (cap : String → Int) (db : DB) : Prop :=
  ∀ r ∈ db.rides, 0 ≤ r.seats_available ∧
    r.seats_available + seatSum r.ride_id db.bookings = cap r.ride_id

/-- Degrees to radians, math.radians. -/
noncomputable def radians (d : ℝ) : ℝ := d * Real.pi / 180

/-- Two-argument arctangent with the quadrant conventions of math.atan2
(and atan2 0 0 = 0). -/
noncomputable def atan2 (y x : ℝ) : ℝ :=
  if 0 < x then Real.arctan (y / x)
  else if x < 0 then
    (if 0 ≤ y then Real.arctan (y / x) + Real.pi else Real.arctan (y / x) - Real.pi)
  else
    (if 0 < y then Real.pi / 2 else if y < 0 then -(Real.pi / 2) else 0)

/-- Translation of calculate_distance (unified_rides.py lines 470 to 486;
the same formula appears as _calculate_distance in websocket_service.py
and location_service.py): Haversine great-circle distance with Earth
radius 6371 km, over exact reals. -/
noncomputable def calculate_distance (lat1 lon1 lat2 lon2 : ℝ) : ℝ :=
  let R : ℝ := 6371
  let dlat := radians (lat2 - lat1)
  let dlon := radians (lon2 - lon1)
  let a := Real.sin (dlat / 2) * Real.sin (dlat / 2) +
    Real.cos (radians lat1) * Real.cos (radians lat2) *
      (Real.sin (dlon / 2) * Real.sin (dlon / 2))
  let c := 2 * atan2 (Real.sqrt a) (Real.sqrt (1 - a))
  R * c

/-- Stored live location of a user (ConnectionManager.user_locations value). -/
structure Loc where
  latitude : ℝ
  longitude : ℝ

/-- One element of the get_nearby_users result list. -/
structure NearbyUser where
  user_id : String
  location : Loc
  distance_km : ℝ

/-- Translation of ConnectionManager.get_nearby_users (websocket_service.py
lines 86 to 106): walk the stored location map in order, skip the querying
user, keep entries within the radius.  The result is not sorted. -/
noncomputable def get_nearby_users (user_id : String) (latitude longitude radius_km : ℝ)
    (user_locations : List (String × Loc)) : List NearbyUser :=
  user_locations.foldr (fun p acc =>
    if p.1 = user_id then acc
    else
      let distance := calculate_distance latitude longitude p.2.latitude p.2.longitude
      if distance ≤ radius_km then ⟨p.1, p.2, distance⟩ :: acc else acc) []

/-- Ride-offer document fields read by the get_ride_offers ranking. -/
structure OfferDoc where
  destLat : ℝ
  destLng : ℝ
  price_per_seat : ℝ

/-- A ride offer together with its computed distance_to_destination. -/
structure RankedOffer where
  doc : OfferDoc
  distance_to_destination : ℝ

/-- The Python price filter, max_price and price > max_price: it only
excludes when max_price is present and truthy (non-zero). -/
def priceExcluded (max_price : Option ℝ) (price : ℝ) : Prop :=
  match max_price with
  | none => False
  | some mp => ¬ mp = 0 ∧ price > mp

open Classical in
/-- The filtering loop of get_ride_offers (unified_rides.py lines 188 to
247): compute for each candidate the distance to the requested destination,
drop candidates beyond max_distance, apply the price filter, and tag the
kept candidates with their distance_to_destination, in input order. -/
noncomputable def offersFiltered (destination_lat destination_lng max_distance : ℝ)
    (max_price : Option ℝ) (docs : List OfferDoc) : List RankedOffer :=
  docs.foldr (fun d acc =>
    let distance := calculate_distance destination_lat destination_lng d.destLat d.destLng
    if distance > max_distance then acc
    else if priceExcluded max_price d.price_per_seat then acc
    else ⟨d, distance⟩ :: acc) []

open Classical in
/-- Translation of the rest of the get_ride_offers pipeline: sort the
filtered candidates ascending by distance, then slice the requested
page, rides[offset:offset + limit]. -/
noncomputable def get_ride_offers (destination_lat destination_lng max_distance : ℝ)
    (max_price : Option ℝ) (page limit : Nat) (docs : List OfferDoc) : List RankedOffer :=
  let sorted := (offersFiltered destination_lat destination_lng max_distance max_price
      docs).insertionSort
    (fun a b => a.distance_to_destination ≤ b.distance_to_destination)
  (sorted.drop ((page - 1) * limit)).take limit

/-- Ride-request document fields read by the get_ride_requests ranking. -/
structure RequestDoc where
  destLat : ℝ
  destLng : ℝ
  max_price_per_seat : ℝ

/-- A ride request together with its computed distance_to_destination. -/
structure RankedRequest where
  doc : RequestDoc
  distance_to_destination : ℝ

open Classical in
/-- The filtering loop of get_ride_requests (unified_rides.py lines 255 to
320): the same distance filter as get_ride_offers, and requests whose
max_price_per_seat lies below min_price are dropped (a plain comparison,
applied unconditionally). -/
noncomputable def requestsFiltered (destination_lat destination_lng max_distance : ℝ)
    (min_price : ℝ) (docs : List RequestDoc) : List RankedRequest :=
  docs.foldr (fun d acc =>
    let distance := calculate_distance destination_lat destination_lng d.destLat d.destLng
    if distance > max_distance then acc
    else if d.max_price_per_seat < min_price then acc
    else ⟨d, distance⟩ :: acc) []

open Classical in
/-- Translation of the rest of the get_ride_requests pipeline, identical to
get_ride_offers: sort the filtered candidates ascending by distance, then
slice the requested page, rides[offset:offset + limit]. -/
noncomputable def get_ride_requests (destination_lat destination_lng max_distance : ℝ)
    (min_price : ℝ) (page limit : Nat) (docs : List RequestDoc) : List RankedRequest :=
  let sorted := (requestsFiltered destination_lat destination_lng max_distance min_price
      docs).insertionSort
    (fun a b => a.distance_to_destination ≤ b.distance_to_destination)
  (sorted.drop ((page - 1) * limit)).take limit

/-- Coordinate of one feature of the places API response consumed by
LocationService.get_nearby_places. -/
structure PlaceDoc where
  latitude : ℝ
  longitude : ℝ

/-- One element of the get_nearby_places result list. -/
structure NearbyPlace where
  place : PlaceDoc
  distance : ℝ

open Classical in
/-- Translation of LocationService.get_nearby_places (location_service.py
lines 84 to 121): tag every feature with its distance from the query
coordinate, sort ascending by distance, and keep the first five.  The
radius argument is accepted but never read by the body: the source
applies no distance filter at all. -/
noncomputable def get_nearby_places (latitude longitude radius : ℝ)
    (features : List PlaceDoc) : List NearbyPlace :=
  let places := features.map
    (fun f =>
      (⟨f, calculate_distance latitude longitude f.latitude f.longitude⟩ : NearbyPlace))
  (places.insertionSort (fun a b => a.distance ≤ b.distance)).take 5

theorem findBooking_cons_pos (a : Booking) (tl : List Booking) (bid : Nat)
    (h : a.booking_id = bid) : findBooking (a :: tl) bid = some a := by
  unfold findBooking
  rw [List.find?_cons_of_pos _ (by simpa using h)]

theorem findBooking_cons_neg (a : Booking) (tl : List Booking) (bid : Nat)
    (h : ¬ a.booking_id = bid) : findBooking (a :: tl) bid = findBooking tl bid := by
  unfold findBooking
  rw [List.find?_cons_of_neg _ (by simpa using h)]

theorem findBooking_mem {bs : List Booking} {bid : Nat} {b : Booking}
    (hf : findBooking bs bid = some b) : b ∈ bs ∧ b.booking_id = bid := by
  refine ⟨List.mem_of_find?_eq_some hf, ?_⟩
  have h := List.find?_some hf
  simpa using h

theorem findRide_cons_pos (a : Ride) (tl : List Ride) (rid : String)
    (h : a.ride_id = rid) : findRide (a :: tl) rid = some a := by
  unfold findRide
  rw [List.find?_cons_of_pos _ (by simpa using h)]

theorem findRide_cons_neg (a : Ride) (tl : List Ride) (rid : String)
    (h : ¬ a.ride_id = rid) : findRide (a :: tl) rid = findRide tl rid := by
  unfold findRide
  rw [List.find?_cons_of_neg _ (by simpa using h)]

theorem findRide_mem {rs : List Ride} {rid : String} {r : Ride}
    (hf : findRide rs rid = some r) : r ∈ rs ∧ r.ride_id = rid := by
  refine ⟨List.mem_of_find?_eq_some hf, ?_⟩
  have h := List.find?_some hf
  simpa using h

theorem findRide_none {rs : List Ride} {rid : String}
    (hf : findRide rs rid = none) : ∀ r ∈ rs, r.ride_id ≠ rid := by
  intro r hr
  have h := List.find?_eq_none.mp hf r hr
  simpa using h

theorem findRide_unique {rs : List Ride} {rid : String} {r0 r : Ride}
    (hu : rs.Pairwise (fun a c => a.ride_id ≠ c.ride_id))
    (hf : findRide rs rid = some r0) (hr : r ∈ rs) (hid : r.ride_id = rid) : r = r0 := by
  induction rs with
  | nil => cases hr
  | cons a tl ih =>
    rcases List.pairwise_cons.mp hu with ⟨ha, htl⟩
    by_cases h : a.ride_id = rid
    · rw [findRide_cons_pos a tl rid h] at hf
      have h0 : a = r0 := by simpa using hf
      subst h0
      rcases List.mem_cons.mp hr with h1 | h1
      · exact h1
      · exact absurd (h.trans hid.symm) (ha r h1)
    · rw [findRide_cons_neg a tl rid h] at hf
      rcases List.mem_cons.mp hr with h1 | h1
      · exact absurd (h1 ▸ hid) h
      · exact ih htl hf h1

theorem updBooking_cons (a : Booking) (tl : List Booking) (bid : Nat) (f : Booking → Booking) :
    updBooking (a :: tl) bid f =
      (if a.booking_id = bid then f a else a) :: updBooking tl bid f := by
  simp [updBooking]

theorem updBooking_of_absent {bs : List Booking} {bid : Nat} {f : Booking → Booking}
    (h : ∀ x ∈ bs, x.booking_id ≠ bid) : updBooking bs bid f = bs := by
  unfold updBooking
  have h1 : ∀ x ∈ bs, (if x.booking_id = bid then f x else x) = x :=
    fun x hx => if_neg (h x hx)
  rw [List.map_congr_left h1]
  exact List.map_id bs

theorem seatSum_nil (rid : String) : seatSum rid [] = 0 := rfl

theorem seatSum_cons (rid : String) (x : Booking) (l : List Booking) :
    seatSum rid (x :: l) = contrib rid x + seatSum rid l := by
  simp [seatSum]

theorem seatSum_append (rid : String) (bs : List Booking) (b : Booking) :
    seatSum rid (bs ++ [b]) = seatSum rid bs + contrib rid b := by
  simp [seatSum]

theorem seatSum_updBooking (rid : String) (f : Booking → Booking) :
    ∀ (bs : List Booking) (bid : Nat) (b : Booking),
      bs.Pairwise (fun a c => a.booking_id ≠ c.booking_id) →
      findBooking bs bid = some b →
      seatSum rid (updBooking bs bid f) =
        seatSum rid bs - contrib rid b + contrib rid (f b)
  | [], bid, b => by
    intro _ hf
    simp [findBooking] at hf
  | a :: tl, bid, b => by
    intro hu hf
    rcases List.pairwise_cons.mp hu with ⟨ha, htl⟩
    by_cases h : a.booking_id = bid
    · rw [findBooking_cons_pos a tl bid h] at hf
      have h0 : a = b := by simpa using hf
      subst h0
      have habs : ∀ x ∈ tl, x.booking_id ≠ bid := by
        intro x hx he
        exact ha x hx (h.trans he.symm)
      rw [updBooking_cons, if_pos h, updBooking_of_absent habs,
        seatSum_cons, seatSum_cons]
      ring
    · rw [findBooking_cons_neg a tl bid h] at hf
      rw [updBooking_cons, if_neg h, seatSum_cons, seatSum_cons,
        seatSum_updBooking rid f tl bid b htl hf]
      ring

theorem seatSum_nonneg (rid : String) {bs : List Booking}
    (h : ∀ b ∈ bs, 1 ≤ b.seats_booked) : 0 ≤ seatSum rid bs := by
  refine List.sum_nonneg ?_
  intro x hx
  rcases List.mem_map.mp hx with ⟨b, hb, rfl⟩
  unfold contrib
  split
  · exact le_trans (by norm_num) (h b hb)
  · exact le_refl 0

theorem updRide_apply_ride_id (r : Ride) (rid : String) (s : Int) :
    (if r.ride_id = rid then { r with seats_available := s } else r).ride_id = r.ride_id := by
  split <;> rfl

theorem pairwise_updRideSeats {rs : List Ride} (rid : String) (s : Int)
    (hu : rs.Pairwise (fun a c => a.ride_id ≠ c.ride_id)) :
    (updRideSeats rs rid s).Pairwise (fun a c => a.ride_id ≠ c.ride_id) := by
  unfold updRideSeats
  rw [List.pairwise_map]
  refine hu.imp ?_
  intro a c hac
  simpa only [updRide_apply_ride_id] using hac

theorem pairwise_updBooking {bs : List Booking} (bid : Nat) (f : Booking → Booking)
    (hid : ∀ x, (f x).booking_id = x.booking_id)
    (hu : bs.Pairwise (fun a c => a.booking_id ≠ c.booking_id)) :
    (updBooking bs bid f).Pairwise (fun a c => a.booking_id ≠ c.booking_id) := by
  unfold updBooking
  rw [List.pairwise_map]
  refine hu.imp ?_
  intro a c hac
  have ha : (if a.booking_id = bid then f a else a).booking_id = a.booking_id := by
    split
    · exact hid a
    · rfl
  have hc : (if c.booking_id = bid then f c else c).booking_id = c.booking_id := by
    split
    · exact hid c
    · rfl
  rw [ha, hc]
  exact hac

theorem mem_updBooking_id {bs : List Booking} {bid : Nat} {f : Booking → Booking} {x : Booking}
    (hid : ∀ y, (f y).booking_id = y.booking_id)
    (hx : x ∈ updBooking bs bid f) : ∃ y ∈ bs, x.booking_id = y.booking_id := by
  rcases List.mem_map.mp hx with ⟨y, hy, rfl⟩
  refine ⟨y, hy, ?_⟩
  split
  · exact hid y
  · rfl

theorem mem_updBooking_seats {bs : List Booking} {bid : Nat} {f : Booking → Booking} {x : Booking}
    (hseats : ∀ y, (f y).seats_booked = y.seats_booked)
    (hx : x ∈ updBooking bs bid f) : ∃ y ∈ bs, x.seats_booked = y.seats_booked := by
  rcases List.mem_map.mp hx with ⟨y, hy, rfl⟩
  refine ⟨y, hy, ?_⟩
  split
  · exact hseats y
  · rfl

theorem WF_act_update {db : DB} (rid : String) (s : Int) (bid : Nat) (f : Booking → Booking)
    (ns : List Notif)
    (hid : ∀ x, (f x).booking_id = x.booking_id)
    (hseats : ∀ x, (f x).seats_booked = x.seats_booked)
    (hwf : WF db) :
    WF { db with
          rides := updRideSeats db.rides rid s
          bookings := updBooking db.bookings bid f
          notifications := ns } := by
  obtain ⟨h1, h2, h3, h4⟩ := hwf
  refine ⟨pairwise_updRideSeats rid s h1, pairwise_updBooking bid f hid h2, ?_, ?_⟩
  · intro b hb
    rcases mem_updBooking_id hid hb with ⟨y, hy, he⟩
    rw [he]
    exact h3 y hy
  · intro b hb
    rcases mem_updBooking_seats hseats hb with ⟨y, hy, he⟩
    rw [he]
    exact h4 y hy

theorem WF_act_update_norides {db : DB} (bid : Nat) (f : Booking → Booking)
    (ns : List Notif)
    (hid : ∀ x, (f x).booking_id = x.booking_id)
    (hseats : ∀ x, (f x).seats_booked = x.seats_booked)
    (hwf : WF db) :
    WF { db with
          bookings := updBooking db.bookings bid f
          notifications := ns } := by
  obtain ⟨h1, h2, h3, h4⟩ := hwf
  refine ⟨h1, pairwise_updBooking bid f hid h2, ?_, ?_⟩
  · intro b hb
    rcases mem_updBooking_id hid hb with ⟨y, hy, he⟩
    rw [he]
    exact h3 y hy
  · intro b hb
    rcases mem_updBooking_seats hseats hb with ⟨y, hy, he⟩
    rw [he]
    exact h4 y hy

theorem seatInv_upd_norides {cap : String → Int} {db : DB} {bid : Nat} {bk : Booking}
    (f : Booking → Booking) (ns : List Notif)
    (hub : db.bookings.Pairwise (fun a c => a.booking_id ≠ c.booking_id))
    (hinv : SeatInv cap db)
    (hfb : findBooking db.bookings bid = some bk)
    (hzero : ∀ r ∈ db.rides, contrib r.ride_id (f bk) = contrib r.ride_id bk) :
    SeatInv cap { db with bookings := updBooking db.bookings bid f, notifications := ns } := by
  intro r hr
  dsimp only at hr ⊢
  have h1 := hinv r hr
  have h2 := seatSum_updBooking r.ride_id f db.bookings bid bk hub hfb
  refine ⟨h1.1, ?_⟩
  rw [h2, hzero r hr]
  have h3 := h1.2
  omega

theorem seatInv_accept_some {cap : String → Int} {db : DB} {bid : Nat} {bk : Booking}
    {ride : Ride} (m : Option String) (ns : List Notif)
    (hwf : WF db) (hinv : SeatInv cap db)
    (hfb : findBooking db.bookings bid = some bk)
    (hst : bk.status = .pending)
    (hfr : findRide db.rides bk.ride_id = some ride)
    (hguard : ¬ ride.seats_available - bk.seats_booked < 0) :
    SeatInv cap { db with
      rides := updRideSeats db.rides bk.ride_id (ride.seats_available - bk.seats_booked)
      bookings := updBooking db.bookings bid
        (fun x => { x with status := .accepted, driver_message := m })
      notifications := ns } := by
  obtain ⟨hur, hub, hids, hseats⟩ := hwf
  intro r1 hr1
  dsimp only at hr1 ⊢
  unfold updRideSeats at hr1
  rcases List.mem_map.mp hr1 with ⟨r, hr, rfl⟩
  have hrideid : ride.ride_id = bk.ride_id := (findRide_mem hfr).2
  by_cases hcase : r.ride_id = bk.ride_id
  · have hre : r = ride := findRide_unique hur hfr hr hcase
    subst hre
    rw [if_pos hcase]
    dsimp only
    have hSum := seatSum_updBooking bk.ride_id
      (fun x => { x with status := .accepted, driver_message := m }) db.bookings bid bk hub hfb
    have hc1 : contrib bk.ride_id bk = 0 := by
      simp [contrib, hst]
    have hc2 : contrib bk.ride_id
        { bk with status := .accepted, driver_message := m } = bk.seats_booked := by
      simp [contrib]
    rw [hcase, hSum, hc1, hc2]
    have h1 := (hinv r hr).2
    rw [hcase] at h1
    omega
  · rw [if_neg hcase]
    have hSum := seatSum_updBooking r.ride_id
      (fun x => { x with status := .accepted, driver_message := m }) db.bookings bid bk hub hfb
    have hc1 : contrib r.ride_id bk = 0 := by
      simp [contrib, hst]
    have hc2 : contrib r.ride_id
        { bk with status := .accepted, driver_message := m } = 0 := by
      have hne : ¬ bk.ride_id = r.ride_id := fun he => hcase he.symm
      simp [contrib, hne]
    have h1 := hinv r hr
    refine ⟨h1.1, ?_⟩
    rw [hSum, hc1, hc2]
    have h2 := h1.2
    omega

theorem seatInv_cancel_some {cap : String → Int} {db : DB} {bid : Nat} {bk : Booking}
    {ride : Ride} (actor : String) (m : Option String) (ns : List Notif)
    (hwf : WF db) (hinv : SeatInv cap db)
    (hfb : findBooking db.bookings bid = some bk)
    (hst : bk.status = .accepted)
    (hfr : findRide db.rides bk.ride_id = some ride) :
    SeatInv cap { db with
      rides := updRideSeats db.rides bk.ride_id (ride.seats_available + bk.seats_booked)
      bookings := updBooking db.bookings bid
        (fun x => { x with
                      status := .cancelled
                      cancelled_by := some actor
                      cancellation_message := m })
      notifications := ns } := by
  obtain ⟨hur, hub, hids, hseats⟩ := hwf
  have hn : 1 ≤ bk.seats_booked := hseats bk (findBooking_mem hfb).1
  intro r1 hr1
  dsimp only at hr1 ⊢
  unfold updRideSeats at hr1
  rcases List.mem_map.mp hr1 with ⟨r, hr, rfl⟩
  have hrideid : ride.ride_id = bk.ride_id := (findRide_mem hfr).2
  by_cases hcase : r.ride_id = bk.ride_id
  · have hre : r = ride := findRide_unique hur hfr hr hcase
    subst hre
    rw [if_pos hcase]
    dsimp only
    have hSum := seatSum_updBooking bk.ride_id
      (fun x => { x with
                    status := .cancelled
                    cancelled_by := some actor
                    cancellation_message := m }) db.bookings bid bk hub hfb
    have hc1 : contrib bk.ride_id bk = bk.seats_booked := by
      simp [contrib, hst]
    have hc2 : contrib bk.ride_id
        { bk with
            status := .cancelled
            cancelled_by := some actor
            cancellation_message := m } = 0 := by
      simp [contrib]
    rw [hcase, hSum, hc1, hc2]
    have h1 := (hinv r hr).1
    have h2 := (hinv r hr).2
    rw [hcase] at h2
    omega
  · rw [if_neg hcase]
    have hSum := seatSum_updBooking r.ride_id
      (fun x => { x with
                    status := .cancelled
                    cancelled_by := some actor
                    cancellation_message := m }) db.bookings bid bk hub hfb
    have hne : ¬ bk.ride_id = r.ride_id := fun he => hcase he.symm
    have hc1 : contrib r.ride_id bk = 0 := by
      simp [contrib, hne]
    have hc2 : contrib r.ride_id
        { bk with
            status := .cancelled
            cancelled_by := some actor
            cancellation_message := m } = 0 := by
      simp [contrib, hne]
    have h1 := hinv r hr
    refine ⟨h1.1, ?_⟩
    rw [hSum, hc1, hc2]
    have h2 := h1.2
    omega

theorem inv_acceptBranch {cap : String → Int} {db : DB} {bid : Nat} {bk : Booking}
    {actor : String} {m : Option String} {db1 : DB} {st : BStatus}
    (hwf : WF db) (hinv : SeatInv cap db)
    (hfb : findBooking db.bookings bid = some bk)
    (h : acceptBranch db bid bk actor m = .ok (db1, st)) :
    WF db1 ∧ SeatInv cap db1 := by
  simp only [acceptBranch] at h
  split at h
  · simp at h
  next hact =>
    split at h
    · simp at h
    next hpend =>
      have hst : bk.status = .pending := not_not.mp hpend
      split at h
      next ride hfr =>
        split at h
        · simp at h
        next hguard =>
          rw [Except.ok.injEq, Prod.mk.injEq] at h
          obtain ⟨h6, h7⟩ := h
          subst h6
          exact ⟨WF_act_update _ _ _ _ _ (fun x => rfl) (fun x => rfl) hwf,
            seatInv_accept_some m _ hwf hinv hfb hst hfr hguard⟩
      next hfr =>
        rw [Except.ok.injEq, Prod.mk.injEq] at h
        obtain ⟨h6, h7⟩ := h
        subst h6
        refine ⟨WF_act_update_norides _ _ _ (fun x => rfl) (fun x => rfl) hwf,
          seatInv_upd_norides _ _ hwf.2.1 hinv hfb ?_⟩
        intro r hr
        have hne : ¬ bk.ride_id = r.ride_id := fun he => findRide_none hfr r hr he.symm
        simp [contrib, hne, hst]

theorem inv_rejectBranch {cap : String → Int} {db : DB} {bid : Nat} {bk : Booking}
    {actor : String} {m : Option String} {db1 : DB} {st : BStatus}
    (hwf : WF db) (hinv : SeatInv cap db)
    (hfb : findBooking db.bookings bid = some bk)
    (h : rejectBranch db bid bk actor m = .ok (db1, st)) :
    WF db1 ∧ SeatInv cap db1 := by
  simp only [rejectBranch] at h
  split at h
  · simp at h
  next hact =>
    split at h
    · simp at h
    next hpend =>
      have hst : bk.status = .pending := not_not.mp hpend
      rw [Except.ok.injEq, Prod.mk.injEq] at h
      obtain ⟨h6, h7⟩ := h
      subst h6
      refine ⟨WF_act_update_norides _ _ _ (fun x => rfl) (fun x => rfl) hwf,
        seatInv_upd_norides _ _ hwf.2.1 hinv hfb ?_⟩
      intro r hr
      simp [contrib, hst]

theorem inv_cancelBranch {cap : String → Int} {db : DB} {bid : Nat} {bk : Booking}
    {actor : String} {m : Option String} {db1 : DB} {st : BStatus}
    (hwf : WF db) (hinv : SeatInv cap db)
    (hfb : findBooking db.bookings bid = some bk)
    (h : cancelBranch db bid bk actor m = .ok (db1, st)) :
    WF db1 ∧ SeatInv cap db1 := by
  simp only [cancelBranch] at h
  split at h
  · simp at h
  next hact =>
    by_cases hacc : bk.status = .accepted
    · rw [if_pos hacc] at h
      cases hfr : findRide db.rides bk.ride_id with
      | some ride =>
        rw [hfr] at h
        dsimp only at h
        rw [Except.ok.injEq, Prod.mk.injEq] at h
        obtain ⟨h6, h7⟩ := h
        subst h6
        exact ⟨WF_act_update _ _ _ _ _ (fun x => rfl) (fun x => rfl) hwf,
          seatInv_cancel_some actor m _ hwf hinv hfb hacc hfr⟩
      | none =>
        rw [hfr] at h
        dsimp only at h
        rw [Except.ok.injEq, Prod.mk.injEq] at h
        obtain ⟨h6, h7⟩ := h
        subst h6
        refine ⟨WF_act_update_norides _ _ _ (fun x => rfl) (fun x => rfl) hwf,
          seatInv_upd_norides _ _ hwf.2.1 hinv hfb ?_⟩
        intro r hr
        have hne : ¬ bk.ride_id = r.ride_id := fun he => findRide_none hfr r hr he.symm
        simp [contrib, hne]
    · rw [if_neg hacc] at h
      rw [Except.ok.injEq, Prod.mk.injEq] at h
      obtain ⟨h6, h7⟩ := h
      subst h6
      refine ⟨WF_act_update_norides _ _ _ (fun x => rfl) (fun x => rfl) hwf,
        seatInv_upd_norides _ _ hwf.2.1 hinv hfb ?_⟩
      intro r hr
      simp [contrib, hacc]

theorem inv_handle {cap : String → Int} {db : DB} {bid : Nat} {a actor : String}
    {m : Option String} {db1 : DB} {st : BStatus}
    (hwf : WF db) (hinv : SeatInv cap db)
    (h : handle_booking_action db bid a actor m = .ok (db1, st)) :
    WF db1 ∧ SeatInv cap db1 := by
  unfold handle_booking_action at h
  cases hfb : findBooking db.bookings bid with
  | none =>
    rw [hfb] at h
    simp at h
  | some bk =>
    rw [hfb] at h
    dsimp only at h
    split at h
    · simp at h
    · split at h
      · exact inv_acceptBranch hwf hinv hfb h
      · split at h
        · exact inv_rejectBranch hwf hinv hfb h
        · split at h
          · exact inv_cancelBranch hwf hinv hfb h
          · simp at h

theorem inv_create {cap : String → Int} {db : DB} {rid pid : String} {s : Int}
    {m : Option String} {db1 : DB} {nb : Booking}
    (hwf : WF db) (hinv : SeatInv cap db)
    (h : create_booking_endpoint db rid pid s m = .ok (db1, nb)) :
    WF db1 ∧ SeatInv cap db1 := by
  unfold create_booking_endpoint at h
  split at h
  case isFalse => simp at h
  case isTrue hval =>
    unfold create_booking at h
    cases hfr : findRide db.rides rid with
    | none =>
      rw [hfr] at h
      simp at h
    | some ride =>
      rw [hfr] at h
      dsimp only at h
      split at h
      · simp at h
      · split at h
        · simp at h
        · split at h
          · simp at h
          · cases hfu : findUser db.users pid with
            | none =>
              rw [hfu] at h
              simp at h
            | some u =>
              rw [hfu] at h
              dsimp only at h
              rw [Except.ok.injEq, Prod.mk.injEq] at h
              obtain ⟨h6, h7⟩ := h
              subst h6
              obtain ⟨hur, hub, hids, hseats⟩ := hwf
              constructor
              · refine ⟨hur, ?_, ?_, ?_⟩
                · rw [List.pairwise_append]
                  refine ⟨hub, List.pairwise_singleton _ _, ?_⟩
                  intro x hx y hy
                  rw [List.mem_singleton] at hy
                  subst hy
                  exact Nat.ne_of_lt (hids x hx)
                · intro b hb
                  rcases List.mem_append.mp hb with hb1 | hb1
                  · exact Nat.lt_trans (hids b hb1) (Nat.lt_succ_self _)
                  · rw [List.mem_singleton] at hb1
                    subst hb1
                    exact Nat.lt_succ_self _
                · intro b hb
                  rcases List.mem_append.mp hb with hb1 | hb1
                  · exact hseats b hb1
                  · rw [List.mem_singleton] at hb1
                    subst hb1
                    exact hval.1
              · intro r hr
                dsimp only at hr ⊢
                have h1 := hinv r hr
                rw [seatSum_append]
                have hc : contrib r.ride_id
                    { booking_id := db.nextId
                      ride_id := rid
                      passenger_id := pid
                      driver_id := ride.driver_id
                      seats_booked := s
                      status := .pending
                      passenger_name := u.name
                      passenger_message := m
                      driver_message := none
                      cancellation_message := none
                      cancelled_by := none } = 0 := by
                  simp [contrib]
                rw [hc]
                have h2 := h1.2
                exact ⟨h1.1, by omega⟩

theorem inv_applyOp {cap : String → Int} {db : DB} (op : Op)
    (hwf : WF db) (hinv : SeatInv cap db) :
    WF (applyOp db op) ∧ SeatInv cap (applyOp db op) := by
  cases op with
  | create rid pid s m =>
    cases h : create_booking_endpoint db rid pid s m with
    | ok p =>
      obtain ⟨db1, nb⟩ := p
      have h2 : applyOp db (.create rid pid s m) = db1 := by
        unfold applyOp
        dsimp only
        rw [h]
      rw [h2]
      exact inv_create hwf hinv h
    | error e =>
      have h2 : applyOp db (.create rid pid s m) = db := by
        unfold applyOp
        dsimp only
        rw [h]
      rw [h2]
      exact ⟨hwf, hinv⟩
  | act bid a actor m =>
    cases h : handle_booking_action db bid a actor m with
    | ok p =>
      obtain ⟨db1, st⟩ := p
      have h2 : applyOp db (.act bid a actor m) = db1 := by
        unfold applyOp
        dsimp only
        rw [h]
      rw [h2]
      exact inv_handle hwf hinv h
    | error e =>
      have h2 : applyOp db (.act bid a actor m) = db := by
        unfold applyOp
        dsimp only
        rw [h]
      rw [h2]
      exact ⟨hwf, hinv⟩

theorem inv_runOps {cap : String → Int} (ops : List Op) :
    ∀ (db : DB), WF db → SeatInv cap db →
      WF (runOps db ops) ∧ SeatInv cap (runOps db ops) := by
  induction ops with
  | nil =>
    intro db hwf hinv
    exact ⟨hwf, hinv⟩
  | cons op tl ih =>
    intro db hwf hinv
    have h := inv_applyOp op hwf hinv
    have hr : runOps db (op :: tl) = runOps (applyOp db op) tl := rfl
    rw [hr]
    exact ih (applyOp db op) h.1 h.2

/-- C1: starting from a well-formed store whose rides satisfy the seat
accounting invariant for capacity map cap (in particular any store in
which every ride still has its initial capacity available and no bookings
exist), every sequence of booking operations (create, accept, reject,
cancel) keeps the seats_available of every ride between 0 and its capacity:
the accept arm refuses any update that would drive the counter below
zero, and cancel only adds back seats of a previously accepted booking. -/
theorem seats_available_bounds (cap : String → Int) (db : DB) (ops : List Op)
    (hwf : WF db) (hinv : SeatInv cap db) :
    ∀ r ∈ (runOps db ops).rides,
      0 ≤ r.seats_available ∧ r.seats_available ≤ cap r.ride_id := by
  obtain ⟨hwf1, hinv1⟩ := inv_runOps ops db hwf hinv
  intro r hr
  have h1 := hinv1 r hr
  have h2 := seatSum_nonneg r.ride_id hwf1.2.2.2
  have h3 := h1.2
  exact ⟨h1.1, by omega⟩

/-- Witness for C1 at a concrete store: one ride of capacity 3, a create
of 2 seats followed by the driver accepting it. -/
theorem seats_available_bounds_witness :
    WF ⟨[⟨"r1", "d", 3⟩], [], [⟨"d", "D"⟩, ⟨"p", "P"⟩], [], 0⟩ ∧
    SeatInv (fun _ => 3) ⟨[⟨"r1", "d", 3⟩], [], [⟨"d", "D"⟩, ⟨"p", "P"⟩], [], 0⟩ ∧
    ∀ r ∈ (runOps ⟨[⟨"r1", "d", 3⟩], [], [⟨"d", "D"⟩, ⟨"p", "P"⟩], [], 0⟩
        [Op.create "r1" "p" 2 none, Op.act 0 "accept" "d" none]).rides,
      0 ≤ r.seats_available ∧ r.seats_available ≤ (fun _ => (3 : Int)) r.ride_id :=
  ⟨by unfold WF; decide, by unfold SeatInv; decide,
    seats_available_bounds (fun _ => 3) _ _
      (by unfold WF; decide) (by unfold SeatInv; decide)⟩

/-- C4: rejected and cancelled are sink states: any action (accept, reject,
cancel or any other token) by any actor on a booking in one of these
states fails with InvalidState and leaves the store, and in particular
the status of the booking, unchanged. -/
theorem terminal_states_sink (db : DB) (bid : Nat) (b : Booking) (action actor : String)
    (m : Option String)
    (hfb : findBooking db.bookings bid = some b)
    (hterm : b.status = .rejected ∨ b.status = .cancelled) :
    handle_booking_action db bid action actor m = .error .InvalidState ∧
    applyOp db (.act bid action actor m) = db ∧
    bookingStatus (applyOp db (.act bid action actor m)) bid = some b.status := by
  have h1 : handle_booking_action db bid action actor m = .error .InvalidState := by
    unfold handle_booking_action
    rw [hfb]
    dsimp only
    rcases hterm with h | h <;> rw [h] <;> simp
  have h2 : applyOp db (.act bid action actor m) = db := by
    unfold applyOp
    dsimp only
    rw [h1]
  refine ⟨h1, h2, ?_⟩
  rw [h2]
  unfold bookingStatus
  rw [hfb]
  rfl

/-- Witness for C4: a rejected booking cannot be accepted. -/
theorem terminal_states_sink_witness :
    handle_booking_action
      ⟨[], [⟨0, "r1", "p", "d", 1, .rejected, "P", none, none, none, none⟩], [], [], 1⟩
      0 "accept" "d" none = .error .InvalidState :=
  (terminal_states_sink
    ⟨[], [⟨0, "r1", "p", "d", 1, .rejected, "P", none, none, none, none⟩], [], [], 1⟩
    0 ⟨0, "r1", "p", "d", 1, .rejected, "P", none, none, none, none⟩ "accept" "d" none
    (by decide) (Or.inl rfl)).1

/-- C9: the public create interface rejects any request whose
seats_requested lies outside 1 to 8, and on success the booking inserted
into the store has seats_booked equal to the validated request, hence in
1 to 8. -/
theorem seats_booked_bounds :
    (∀ (db : DB) (rid pid : String) (s : Int) (m : Option String),
        s < 1 ∨ 8 < s →
        create_booking_endpoint db rid pid s m = .error .Validation) ∧
    (∀ (db : DB) (rid pid : String) (s : Int) (m : Option String) (db1 : DB) (nb : Booking),
        create_booking_endpoint db rid pid s m = .ok (db1, nb) →
        1 ≤ nb.seats_booked ∧ nb.seats_booked ≤ 8 ∧
          db1.bookings = db.bookings ++ [nb]) := by
  constructor
  · intro db rid pid s m hs
    unfold create_booking_endpoint
    rw [if_neg (by omega)]
  · intro db rid pid s m db1 nb h
    unfold create_booking_endpoint at h
    split at h
    case isTrue hval =>
      unfold create_booking at h
      cases hfr : findRide db.rides rid with
      | none =>
        rw [hfr] at h
        simp at h
      | some ride =>
        rw [hfr] at h
        dsimp only at h
        split at h
        · simp at h
        · split at h
          · simp at h
          · split at h
            · simp at h
            · cases hfu : findUser db.users pid with
              | none =>
                rw [hfu] at h
                simp at h
              | some u =>
                rw [hfu] at h
                dsimp only at h
                rw [Except.ok.injEq, Prod.mk.injEq] at h
                obtain ⟨h6, h7⟩ := h
                subst h6
                subst h7
                exact ⟨hval.1, hval.2, rfl⟩
    case isFalse => simp at h

/-- Witness for C9: nine seats are rejected by validation; a two-seat
request goes through with seats_booked equal to 2. -/
theorem seats_booked_bounds_witness :
    create_booking_endpoint ⟨[⟨"r1", "d", 3⟩], [], [⟨"p", "P"⟩], [], 0⟩ "r1" "p" 9 none
        = .error .Validation ∧
    (1 ≤ (⟨0, "r1", "p", "d", 2, .pending, "P", none, none, none, none⟩ : Booking).seats_booked ∧
      (⟨0, "r1", "p", "d", 2, .pending, "P", none, none, none, none⟩ : Booking).seats_booked ≤ 8 ∧
      (⟨[⟨"r1", "d", 3⟩], [⟨0, "r1", "p", "d", 2, .pending, "P", none, none, none, none⟩],
          [⟨"p", "P"⟩], [⟨"d", "booking_request", 0, "r1", none⟩], 1⟩ : DB).bookings =
        (⟨[⟨"r1", "d", 3⟩], [], [⟨"p", "P"⟩], [], 0⟩ : DB).bookings ++
          [⟨0, "r1", "p", "d", 2, .pending, "P", none, none, none, none⟩]) :=
  ⟨seats_booked_bounds.1 _ "r1" "p" 9 none (by omega),
    seats_booked_bounds.2 _ "r1" "p" 2 none _ _ rfl⟩

/-- C5: create fails with NotFound when the ride is absent, with Conflict
on self-booking, with CapacityExceeded when the current
seats_available of the ride is below the request, with Conflict on a duplicate
pending or accepted booking, and with NotFound when the passenger
document is absent; on success it appends one pending booking and one
booking_request notification addressed to the ride owner, and leaves the
rides collection, in particular seats_available, untouched.  The parts
follow the check order of the source. -/
theorem create_booking_spec :
    (∀ (db : DB) (rid pid : String) (s : Int) (m : Option String),
        findRide db.rides rid = none →
        create_booking db rid pid s m = .error .NotFound) ∧
    (∀ (db : DB) (rid pid : String) (s : Int) (m : Option String) (r : Ride),
        findRide db.rides rid = some r → r.driver_id = pid →
        create_booking db rid pid s m = .error .Conflict) ∧
    (∀ (db : DB) (rid pid : String) (s : Int) (m : Option String) (r : Ride),
        findRide db.rides rid = some r → ¬ r.driver_id = pid →
        r.seats_available < s →
        create_booking db rid pid s m = .error .CapacityExceeded) ∧
    (∀ (db : DB) (rid pid : String) (s : Int) (m : Option String) (r : Ride),
        findRide db.rides rid = some r → ¬ r.driver_id = pid →
        ¬ r.seats_available < s → hasActiveBooking db.bookings rid pid = true →
        create_booking db rid pid s m = .error .Conflict) ∧
    (∀ (db : DB) (rid pid : String) (s : Int) (m : Option String) (r : Ride),
        findRide db.rides rid = some r → ¬ r.driver_id = pid →
        ¬ r.seats_available < s → hasActiveBooking db.bookings rid pid = false →
        findUser db.users pid = none →
        create_booking db rid pid s m = .error .NotFound) ∧
    (∀ (db : DB) (rid pid : String) (s : Int) (m : Option String) (r : Ride) (u : User),
        findRide db.rides rid = some r → ¬ r.driver_id = pid →
        ¬ r.seats_available < s → hasActiveBooking db.bookings rid pid = false →
        findUser db.users pid = some u →
        ∃ (db1 : DB) (nb : Booking),
          create_booking db rid pid s m = .ok (db1, nb) ∧
          nb.status = .pending ∧ nb.seats_booked = s ∧ nb.driver_id = r.driver_id ∧
          db1.rides = db.rides ∧
          db1.bookings = db.bookings ++ [nb] ∧
          db1.notifications = db.notifications ++
            [{ user_id := r.driver_id
               ntype := "booking_request"
               booking_id := db.nextId
               ride_id := rid
               cancelled_by := none }]) := by
  refine ⟨?_, ?_, ?_, ?_, ?_, ?_⟩
  · intro db rid pid s m hfr
    unfold create_booking
    rw [hfr]
  · intro db rid pid s m r hfr hpid
    unfold create_booking
    rw [hfr]
    dsimp only
    rw [if_pos hpid]
  · intro db rid pid s m r hfr hpid hseats
    unfold create_booking
    rw [hfr]
    dsimp only
    rw [if_neg hpid, if_pos hseats]
  · intro db rid pid s m r hfr hpid hseats hdup
    unfold create_booking
    rw [hfr]
    dsimp only
    rw [if_neg hpid, if_neg hseats, hdup]
    rfl
  · intro db rid pid s m r hfr hpid hseats hdup hfu
    unfold create_booking
    rw [hfr]
    dsimp only
    rw [if_neg hpid, if_neg hseats, hdup]
    rw [hfu]
    rfl
  · intro db rid pid s m r u hfr hpid hseats hdup hfu
    unfold create_booking
    rw [hfr]
    dsimp only
    rw [if_neg hpid, if_neg hseats, hdup]
    rw [hfu]
    exact ⟨_, _, rfl, rfl, rfl, rfl, rfl, rfl, rfl⟩

/-- Concrete store used by the C5 witness: one ride with 1 free seat owned
by d, an existing pending booking by q, and users p and q. -/
def c5db : DB :=
  { rides := [⟨"r1", "d", 1⟩]
    bookings := [⟨0, "r1", "q", "d", 1, .pending, "Q", none, none, none, none⟩]
    users := [⟨"p", "P"⟩, ⟨"q", "Q"⟩]
    notifications := []
    nextId := 1 }

/-- Witness for C5: each failure mode and the success case at concrete
inputs. -/
theorem create_booking_spec_witness :
    create_booking c5db "nope" "p" 1 none = .error .NotFound ∧
    create_booking c5db "r1" "d" 1 none = .error .Conflict ∧
    create_booking c5db "r1" "p" 5 none = .error .CapacityExceeded ∧
    create_booking c5db "r1" "q" 1 none = .error .Conflict ∧
    create_booking c5db "r1" "ghost" 1 none = .error .NotFound ∧
    ∃ (db1 : DB) (nb : Booking),
      create_booking c5db "r1" "p" 1 none = .ok (db1, nb) ∧
      nb.status = .pending ∧ nb.seats_booked = 1 ∧
      nb.driver_id = (⟨"r1", "d", 1⟩ : Ride).driver_id ∧
      db1.rides = c5db.rides ∧
      db1.bookings = c5db.bookings ++ [nb] ∧
      db1.notifications = c5db.notifications ++
        [{ user_id := (⟨"r1", "d", 1⟩ : Ride).driver_id
           ntype := "booking_request"
           booking_id := c5db.nextId
           ride_id := "r1"
           cancelled_by := none }] :=
  ⟨create_booking_spec.1 c5db "nope" "p" 1 none (by decide),
    create_booking_spec.2.1 c5db "r1" "d" 1 none ⟨"r1", "d", 1⟩ (by decide) rfl,
    create_booking_spec.2.2.1 c5db "r1" "p" 5 none ⟨"r1", "d", 1⟩
      (by decide) (by decide) (by decide),
    create_booking_spec.2.2.2.1 c5db "r1" "q" 1 none ⟨"r1", "d", 1⟩
      (by decide) (by decide) (by decide) (by decide),
    create_booking_spec.2.2.2.2.1 c5db "r1" "ghost" 1 none ⟨"r1", "d", 1⟩
      (by decide) (by decide) (by decide) (by decide) (by decide),
    create_booking_spec.2.2.2.2.2 c5db "r1" "p" 1 none ⟨"r1", "d", 1⟩ ⟨"p", "P"⟩
      (by decide) (by decide) (by decide) (by decide) (by decide)⟩

theorem strLower_accept : strLower "accept" = "accept" := by decide

theorem strLower_cancel : strLower "cancel" = "cancel" := by decide

theorem handle_eval_branch (db : DB) (bid : Nat) (bk : Booking) (a actor : String)
    (m : Option String)
    (hfb : findBooking db.bookings bid = some bk)
    (hst : bk.status = .pending ∨ bk.status = .accepted) :
    handle_booking_action db bid a actor m =
      (if strLower a = "accept" then acceptBranch db bid bk actor m
       else if strLower a = "reject" then rejectBranch db bid bk actor m
       else if strLower a = "cancel" then cancelBranch db bid bk actor m
       else .error .InvalidAction) := by
  unfold handle_booking_action
  rw [hfb]
  dsimp only
  have hg : ¬ (bk.status ≠ .pending ∧ bk.status ≠ .accepted) := by
    rcases hst with h | h <;> simp [h]
  rw [if_neg hg]

theorem updRideSeats_cons (a : Ride) (tl : List Ride) (rid : String) (s : Int) :
    updRideSeats (a :: tl) rid s =
      (if a.ride_id = rid then { a with seats_available := s } else a) :: updRideSeats tl rid s := by
  simp [updRideSeats]

theorem findRide_upd (s : Int) :
    ∀ {rs : List Ride} {rid : String} {r : Ride},
      findRide rs rid = some r →
      findRide (updRideSeats rs rid s) rid = some { r with seats_available := s }
  | [], rid, r => by
    intro hf
    simp [findRide] at hf
  | a :: tl, rid, r => by
    intro hf
    by_cases h : a.ride_id = rid
    · rw [findRide_cons_pos a tl rid h] at hf
      have h0 : a = r := by simpa using hf
      subst h0
      rw [updRideSeats_cons, if_pos h]
      exact findRide_cons_pos _ _ _ h
    · rw [findRide_cons_neg a tl rid h] at hf
      rw [updRideSeats_cons, if_neg h]
      rw [findRide_cons_neg _ _ _ h]
      exact findRide_upd s hf

theorem findBooking_upd (f : Booking → Booking) (hid : ∀ x, (f x).booking_id = x.booking_id) :
    ∀ {bs : List Booking} {bid : Nat} {b : Booking},
      findBooking bs bid = some b →
      findBooking (updBooking bs bid f) bid = some (f b)
  | [], bid, b => by
    intro hf
    simp [findBooking] at hf
  | a :: tl, bid, b => by
    intro hf
    by_cases h : a.booking_id = bid
    · rw [findBooking_cons_pos a tl bid h] at hf
      have h0 : a = b := by simpa using hf
      subst h0
      rw [updBooking_cons, if_pos h]
      refine findBooking_cons_pos _ _ _ ?_
      rw [hid a]
      exact h
    · rw [findBooking_cons_neg a tl bid h] at hf
      rw [updBooking_cons, if_neg h]
      rw [findBooking_cons_neg _ _ _ h]
      exact findBooking_upd f hid hf

theorem acceptBranch_ok {db : DB} (bid : Nat) {b : Booking} (m : Option String) {r : Ride}
    (hfr : findRide db.rides b.ride_id = some r)
    (hst : b.status = .pending)
    (hguard : ¬ r.seats_available - b.seats_booked < 0) :
    acceptBranch db bid b b.driver_id m =
      .ok ({ db with
              rides := updRideSeats db.rides b.ride_id (r.seats_available - b.seats_booked)
              bookings := updBooking db.bookings bid
                (fun x => { x with status := .accepted, driver_message := m })
              notifications := db.notifications ++
                [{ user_id := b.passenger_id
                   ntype := "booking_accepted"
                   booking_id := bid
                   ride_id := b.ride_id
                   cancelled_by := none }] }, .accepted) := by
  unfold acceptBranch
  rw [if_neg (by simp), if_neg (by simp [hst]), hfr]
  dsimp only
  rw [if_neg hguard]

theorem cancelBranch_ok_acc {db : DB} (bid : Nat) {b : Booking} (actor : String)
    (m : Option String) {r : Ride}
    (hactor : actor = b.driver_id ∨ actor = b.passenger_id)
    (hst : b.status = .accepted)
    (hfr : findRide db.rides b.ride_id = some r) :
    cancelBranch db bid b actor m =
      .ok ({ db with
              rides := updRideSeats db.rides b.ride_id (r.seats_available + b.seats_booked)
              bookings := updBooking db.bookings bid
                (fun x => { x with
                              status := .cancelled
                              cancelled_by := some actor
                              cancellation_message := m })
              notifications := db.notifications ++
                [{ user_id := if actor = b.passenger_id then b.driver_id else b.passenger_id
                   ntype := "booking_cancelled"
                   booking_id := bid
                   ride_id := b.ride_id
                   cancelled_by := some actor }] }, .cancelled) := by
  unfold cancelBranch
  rw [if_neg (by rcases hactor with h | h <;> simp [h])]
  rw [if_pos hst, hfr]

theorem cancel_accepted_eval (db : DB) {bid : Nat} {b : Booking} {r : Ride}
    (actor : String) (m : Option String)
    (hfb : findBooking db.bookings bid = some b)
    (hfr : findRide db.rides b.ride_id = some r)
    (hst : b.status = .accepted)
    (hactor : actor = b.driver_id ∨ actor = b.passenger_id) :
    ∃ db2 : DB,
      handle_booking_action db bid "cancel" actor m = .ok (db2, .cancelled) ∧
      rideSeats db2 b.ride_id = some (r.seats_available + b.seats_booked) := by
  have h1 := cancelBranch_ok_acc bid actor m hactor hst hfr
  have h2 : handle_booking_action db bid "cancel" actor m = cancelBranch db bid b actor m := by
    rw [handle_eval_branch db bid b "cancel" actor m hfb (Or.inr hst)]
    rw [strLower_cancel]
    rw [if_neg (by decide), if_neg (by decide), if_pos rfl]
  refine ⟨_, h2.trans h1, ?_⟩
  unfold rideSeats
  dsimp only
  rw [findRide_upd _ hfr]
  rfl

/-- C2: accepting a pending booking of n seats decreases the seats_available
of the ride by exactly n; cancelling a previously accepted booking of
n seats increases it by exactly n; and accept followed by cancel of the
same booking restores the original seat count of the ride. -/
theorem accept_cancel_exact :
    (∀ (db : DB) (bid : Nat) (b : Booking) (r : Ride) (m1 m2 : Option String),
        db.rides.Pairwise (fun x y => x.ride_id ≠ y.ride_id) →
        findBooking db.bookings bid = some b →
        findRide db.rides b.ride_id = some r →
        b.status = .pending →
        b.seats_booked ≤ r.seats_available →
        ∃ db1 db2 : DB,
          handle_booking_action db bid "accept" b.driver_id m1 = .ok (db1, .accepted) ∧
          rideSeats db1 b.ride_id = some (r.seats_available - b.seats_booked) ∧
          handle_booking_action db1 bid "cancel" b.passenger_id m2 = .ok (db2, .cancelled) ∧
          rideSeats db2 b.ride_id = some r.seats_available) ∧
    (∀ (db : DB) (bid : Nat) (b : Booking) (r : Ride) (actor : String) (m : Option String),
        findBooking db.bookings bid = some b →
        findRide db.rides b.ride_id = some r →
        b.status = .accepted →
        (actor = b.driver_id ∨ actor = b.passenger_id) →
        ∃ db2 : DB,
          handle_booking_action db bid "cancel" actor m = .ok (db2, .cancelled) ∧
          rideSeats db2 b.ride_id = some (r.seats_available + b.seats_booked)) := by
  constructor
  · intro db bid b r m1 m2 hur hfb hfr hst hseats
    have hguard : ¬ r.seats_available - b.seats_booked < 0 := by omega
    have hA := acceptBranch_ok bid m1 hfr hst hguard
    have hH : handle_booking_action db bid "accept" b.driver_id m1 =
        acceptBranch db bid b b.driver_id m1 := by
      rw [handle_eval_branch db bid b "accept" b.driver_id m1 hfb (Or.inl hst)]
      rw [strLower_accept, if_pos rfl]
    have hfb1 := findBooking_upd
      (fun x => { x with status := .accepted, driver_message := m1 }) (fun x => rfl) hfb
    have hfr1 := findRide_upd (r.seats_available - b.seats_booked) hfr
    obtain ⟨db2, hcan, hseats2⟩ := cancel_accepted_eval
      ({ db with
        rides := updRideSeats db.rides b.ride_id (r.seats_available - b.seats_booked)
        bookings := updBooking db.bookings bid
          (fun x => { x with status := .accepted, driver_message := m1 })
        notifications := db.notifications ++
          [{ user_id := b.passenger_id
             ntype := "booking_accepted"
             booking_id := bid
             ride_id := b.ride_id
             cancelled_by := none }] })
      (b := { b with status := .accepted, driver_message := m1 })
      (r := { r with seats_available := r.seats_available - b.seats_booked })
      b.passenger_id m2 hfb1 hfr1 rfl (Or.inr rfl)
    have hs2 : rideSeats db2 b.ride_id = some r.seats_available := by
      dsimp only at hseats2
      rw [Int.sub_add_cancel] at hseats2
      exact hseats2
    refine ⟨_, db2, hH.trans hA, ?_, hcan, hs2⟩
    unfold rideSeats
    dsimp only
    rw [hfr1]
    rfl
  · intro db bid b r actor m hfb hfr hst hactor
    exact cancel_accepted_eval db actor m hfb hfr hst hactor

/-- Witness for C2: the round trip on a concrete ride with 2 free seats and
a pending 1-seat booking, and the exact-increase law on a concrete
accepted booking. -/
theorem accept_cancel_exact_witness :
    (∃ db1 db2 : DB,
        handle_booking_action
          ⟨[⟨"r1", "d", 2⟩], [⟨0, "r1", "p", "d", 1, .pending, "P", none, none, none, none⟩],
            [], [], 1⟩ 0 "accept"
          (⟨0, "r1", "p", "d", 1, .pending, "P", none, none, none, none⟩ : Booking).driver_id
          none = .ok (db1, .accepted) ∧
        rideSeats db1
          (⟨0, "r1", "p", "d", 1, .pending, "P", none, none, none, none⟩ : Booking).ride_id =
            some ((⟨"r1", "d", 2⟩ : Ride).seats_available -
              (⟨0, "r1", "p", "d", 1, .pending, "P", none, none, none, none⟩ : Booking).seats_booked) ∧
        handle_booking_action db1 0 "cancel"
          (⟨0, "r1", "p", "d", 1, .pending, "P", none, none, none, none⟩ : Booking).passenger_id
          none = .ok (db2, .cancelled) ∧
        rideSeats db2
          (⟨0, "r1", "p", "d", 1, .pending, "P", none, none, none, none⟩ : Booking).ride_id =
            some (⟨"r1", "d", 2⟩ : Ride).seats_available) ∧
    (∃ db2 : DB,
        handle_booking_action
          ⟨[⟨"r1", "d", 1⟩], [⟨0, "r1", "p", "d", 1, .accepted, "P", none, none, none, none⟩],
            [], [], 1⟩ 0 "cancel" "p" none = .ok (db2, .cancelled) ∧
        rideSeats db2
          (⟨0, "r1", "p", "d", 1, .accepted, "P", none, none, none, none⟩ : Booking).ride_id =
            some ((⟨"r1", "d", 1⟩ : Ride).seats_available +
              (⟨0, "r1", "p", "d", 1, .accepted, "P", none, none, none, none⟩ : Booking).seats_booked)) :=
  ⟨accept_cancel_exact.1
      ⟨[⟨"r1", "d", 2⟩], [⟨0, "r1", "p", "d", 1, .pending, "P", none, none, none, none⟩],
        [], [], 1⟩ 0
      ⟨0, "r1", "p", "d", 1, .pending, "P", none, none, none, none⟩ ⟨"r1", "d", 2⟩ none none
      (by decide) (by decide) (by decide) rfl (by decide),
    accept_cancel_exact.2
      ⟨[⟨"r1", "d", 1⟩], [⟨0, "r1", "p", "d", 1, .accepted, "P", none, none, none, none⟩],
        [], [], 1⟩ 0
      ⟨0, "r1", "p", "d", 1, .accepted, "P", none, none, none, none⟩ ⟨"r1", "d", 1⟩ "p" none
      (by decide) (by decide) rfl (Or.inr rfl)⟩

theorem acceptBranch_capacity {db : DB} {bid : Nat} {b : Booking} (m : Option String) {r : Ride}
    (hfr : findRide db.rides b.ride_id = some r)
    (hst : b.status = .pending)
    (hguard : r.seats_available - b.seats_booked < 0) :
    acceptBranch db bid b b.driver_id m = .error .CapacityExceeded := by
  unfold acceptBranch
  rw [if_neg (by simp), if_neg (by simp [hst]), hfr]
  dsimp only
  rw [if_pos hguard]

/-- Concrete store of the C3 scenario: a ride with 2 free seats and two
pending bookings, for 2 seats (passenger a) and 1 seat (passenger b). -/
def c3db : DB :=
  { rides := [⟨"r1", "d", 2⟩]
    bookings := [⟨0, "r1", "a", "d", 2, .pending, "A", none, none, none, none⟩,
      ⟨1, "r1", "b", "d", 1, .pending, "B", none, none, none, none⟩]
    users := [⟨"d", "D"⟩, ⟨"a", "A"⟩, ⟨"b", "B"⟩]
    notifications := []
    nextId := 2 }

/-- The C3 store after the driver accepts the 2-seat booking. -/
def c3db1 : DB := applyOp c3db (.act 0 "accept" "d" none)

/-- C3: the accept arm re-reads the current seat count of the ride, computes
new_available = seats_available - seats_booked, and fails with
CapacityExceeded leaving the store unchanged when that is negative; in
the concrete scenario a ride with 2 seats and pending bookings for 2 and
1 seats accepts the first (seats drop to 0) and then rejects the second
with CapacityExceeded while it stays pending. -/
theorem accept_capacity_check :
    (∀ (db : DB) (bid : Nat) (b : Booking) (r : Ride) (m : Option String),
        findBooking db.bookings bid = some b →
        findRide db.rides b.ride_id = some r →
        b.status = .pending →
        r.seats_available - b.seats_booked < 0 →
        handle_booking_action db bid "accept" b.driver_id m = .error .CapacityExceeded ∧
        applyOp db (.act bid "accept" b.driver_id m) = db) ∧
    (handle_booking_action c3db 0 "accept" "d" none = .ok (c3db1, .accepted) ∧
      rideSeats c3db1 "r1" = some 0 ∧
      bookingStatus c3db1 0 = some .accepted ∧
      handle_booking_action c3db1 1 "accept" "d" none = .error .CapacityExceeded ∧
      bookingStatus c3db1 1 = some .pending ∧
      rideSeats (applyOp c3db1 (.act 1 "accept" "d" none)) "r1" = some 0 ∧
      bookingStatus (applyOp c3db1 (.act 1 "accept" "d" none)) 1 = some .pending) := by
  constructor
  · intro db bid b r m hfb hfr hst hguard
    have h1 : handle_booking_action db bid "accept" b.driver_id m =
        .error .CapacityExceeded := by
      rw [handle_eval_branch db bid b "accept" b.driver_id m hfb (Or.inl hst)]
      rw [strLower_accept, if_pos rfl]
      exact acceptBranch_capacity m hfr hst hguard
    refine ⟨h1, ?_⟩
    unfold applyOp
    dsimp only
    rw [h1]
  · exact ⟨by decide, by decide, by decide, by decide, by decide, by decide, by decide⟩

/-- Witness for C3: the general guard applied to the second booking of the
scenario after the first acceptance. -/
theorem accept_capacity_check_witness :
    handle_booking_action c3db1 1 "accept"
        (⟨1, "r1", "b", "d", 1, .pending, "B", none, none, none, none⟩ : Booking).driver_id
        none = .error .CapacityExceeded ∧
    applyOp c3db1 (.act 1 "accept"
        (⟨1, "r1", "b", "d", 1, .pending, "B", none, none, none, none⟩ : Booking).driver_id
        none) = c3db1 :=
  accept_capacity_check.1 c3db1 1
    ⟨1, "r1", "b", "d", 1, .pending, "B", none, none, none, none⟩
    ⟨"r1", "d", 0⟩ none (by decide) (by decide) rfl (by decide)

theorem acceptBranch_ok_none {db : DB} {bid : Nat} {b : Booking} (m : Option String)
    (hst : b.status = .pending)
    (hfr : findRide db.rides b.ride_id = none) :
    acceptBranch db bid b b.driver_id m =
      .ok ({ db with
              bookings := updBooking db.bookings bid
                (fun x => { x with status := .accepted, driver_message := m })
              notifications := db.notifications ++
                [{ user_id := b.passenger_id
                   ntype := "booking_accepted"
                   booking_id := bid
                   ride_id := b.ride_id
                   cancelled_by := none }] }, .accepted) := by
  unfold acceptBranch
  rw [if_neg (by simp), if_neg (by simp [hst]), hfr]

theorem cancelBranch_ok_none {db : DB} {bid : Nat} {b : Booking} (actor : String)
    (m : Option String)
    (hactor : actor = b.driver_id ∨ actor = b.passenger_id)
    (hfr : findRide db.rides b.ride_id = none) :
    cancelBranch db bid b actor m =
      .ok ({ db with
              bookings := updBooking db.bookings bid
                (fun x => { x with
                              status := .cancelled
                              cancelled_by := some actor
                              cancellation_message := m })
              notifications := db.notifications ++
                [{ user_id := if actor = b.passenger_id then b.driver_id else b.passenger_id
                   ntype := "booking_cancelled"
                   booking_id := bid
                   ride_id := b.ride_id
                   cancelled_by := some actor }] }, .cancelled) := by
  unfold cancelBranch
  rw [if_neg (by rcases hactor with h | h <;> simp [h]), hfr]
  dsimp only
  rw [ite_self]

/-- Store of the C6 counterexample: booking 0 is pending and references
ride ghost, which is absent from the rides collection. -/
def c6db : DB :=
  { rides := []
    bookings := [⟨0, "ghost", "p", "d", 1, .pending, "P", none, none, none, none⟩]
    users := []
    notifications := []
    nextId := 1 }

/-- The C6 store after the driver accepts booking 0. -/
def c6db1 : DB := applyOp c6db (.act 0 "accept" "d" none)

/-- Counterexample to C6: accepting an existing booking whose referenced
ride document is absent does not fail with NotFound; the operation
succeeds and completes the booking status change to accepted. -/
theorem missing_ride_no_notfound :
    handle_booking_action c6db 0 "accept" "d" none ≠ .error .NotFound ∧
    handle_booking_action c6db 0 "accept" "d" none = .ok (c6db1, .accepted) ∧
    bookingStatus c6db1 0 = some .accepted ∧
    c6db1.rides = c6db.rides :=
  ⟨by decide, by decide, by decide, by decide⟩

/-- C6 amended: NotFound is raised only when the booking document itself is
absent; when the booking exists but its ride document is absent, accept
and cancel skip the seat update and still complete the booking status
change (reject never consults the ride). -/
theorem missing_ride_transitions :
    (∀ (db : DB) (bid : Nat) (action actor : String) (m : Option String),
        findBooking db.bookings bid = none →
        handle_booking_action db bid action actor m = .error .NotFound) ∧
    (∀ (db : DB) (bid : Nat) (b : Booking) (m : Option String),
        findBooking db.bookings bid = some b →
        b.status = .pending →
        findRide db.rides b.ride_id = none →
        ∃ db1 : DB,
          handle_booking_action db bid "accept" b.driver_id m = .ok (db1, .accepted) ∧
          db1.rides = db.rides ∧
          bookingStatus db1 bid = some .accepted) ∧
    (∀ (db : DB) (bid : Nat) (b : Booking) (actor : String) (m : Option String),
        findBooking db.bookings bid = some b →
        (b.status = .pending ∨ b.status = .accepted) →
        (actor = b.driver_id ∨ actor = b.passenger_id) →
        findRide db.rides b.ride_id = none →
        ∃ db1 : DB,
          handle_booking_action db bid "cancel" actor m = .ok (db1, .cancelled) ∧
          db1.rides = db.rides ∧
          bookingStatus db1 bid = some .cancelled) := by
  refine ⟨?_, ?_, ?_⟩
  · intro db bid action actor m hfb
    unfold handle_booking_action
    rw [hfb]
  · intro db bid b m hfb hst hfr
    have h1 : handle_booking_action db bid "accept" b.driver_id m =
        acceptBranch db bid b b.driver_id m := by
      rw [handle_eval_branch db bid b "accept" b.driver_id m hfb (Or.inl hst)]
      rw [strLower_accept, if_pos rfl]
    refine ⟨_, h1.trans (acceptBranch_ok_none m hst hfr), rfl, ?_⟩
    unfold bookingStatus
    dsimp only
    rw [findBooking_upd (fun x => { x with status := .accepted, driver_message := m })
      (fun x => rfl) hfb]
    rfl
  · intro db bid b actor m hfb hst hactor hfr
    have h1 : handle_booking_action db bid "cancel" actor m =
        cancelBranch db bid b actor m := by
      rw [handle_eval_branch db bid b "cancel" actor m hfb hst]
      rw [strLower_cancel]
      rw [if_neg (by decide), if_neg (by decide), if_pos rfl]
    refine ⟨_, h1.trans (cancelBranch_ok_none actor m hactor hfr), rfl, ?_⟩
    unfold bookingStatus
    dsimp only
    rw [findBooking_upd
      (fun x => { x with
                    status := .cancelled
                    cancelled_by := some actor
                    cancellation_message := m })
      (fun x => rfl) hfb]
    rfl

/-- Witness for the amended C6 at concrete stores. -/
theorem missing_ride_transitions_witness :
    handle_booking_action c6db 5 "accept" "d" none = .error .NotFound ∧
    (∃ db1 : DB,
        handle_booking_action c6db 0 "accept"
          (⟨0, "ghost", "p", "d", 1, .pending, "P", none, none, none, none⟩ : Booking).driver_id
          none = .ok (db1, .accepted) ∧
        db1.rides = c6db.rides ∧
        bookingStatus db1 0 = some .accepted) ∧
    (∃ db1 : DB,
        handle_booking_action c6db 0 "cancel" "p" none = .ok (db1, .cancelled) ∧
        db1.rides = c6db.rides ∧
        bookingStatus db1 0 = some .cancelled) :=
  ⟨missing_ride_transitions.1 c6db 5 "accept" "d" none (by decide),
    missing_ride_transitions.2.1 c6db 0
      ⟨0, "ghost", "p", "d", 1, .pending, "P", none, none, none, none⟩ none
      (by decide) rfl (by decide),
    missing_ride_transitions.2.2 c6db 0
      ⟨0, "ghost", "p", "d", 1, .pending, "P", none, none, none, none⟩ "p" none
      (by decide) (Or.inl rfl) (Or.inr rfl) (by decide)⟩

theorem hav_a_symm (lat1 lon1 lat2 lon2 : ℝ) :
    Real.sin (radians (lat2 - lat1) / 2) * Real.sin (radians (lat2 - lat1) / 2) +
      Real.cos (radians lat1) * Real.cos (radians lat2) *
        (Real.sin (radians (lon2 - lon1) / 2) * Real.sin (radians (lon2 - lon1) / 2)) =
    Real.sin (radians (lat1 - lat2) / 2) * Real.sin (radians (lat1 - lat2) / 2) +
      Real.cos (radians lat2) * Real.cos (radians lat1) *
        (Real.sin (radians (lon1 - lon2) / 2) * Real.sin (radians (lon1 - lon2) / 2)) := by
  have e1 : radians (lat2 - lat1) / 2 = -(radians (lat1 - lat2) / 2) := by
    unfold radians
    ring
  have e2 : radians (lon2 - lon1) / 2 = -(radians (lon1 - lon2) / 2) := by
    unfold radians
    ring
  rw [e1, e2]
  simp only [Real.sin_neg]
  ring

theorem calculate_distance_self (lat lon : ℝ) : calculate_distance lat lon lat lon = 0 := by
  simp only [calculate_distance]
  have e0 : radians (lat - lat) / 2 = 0 := by
    unfold radians
    ring
  have e1 : radians (lon - lon) / 2 = 0 := by
    unfold radians
    ring
  rw [e0, e1]
  simp only [Real.sin_zero, mul_zero, zero_mul, add_zero, zero_add, sub_zero,
    Real.sqrt_zero, Real.sqrt_one]
  unfold atan2
  rw [if_pos one_pos]
  simp [Real.arctan_zero]

theorem calculate_distance_symm (lat1 lon1 lat2 lon2 : ℝ) :
    calculate_distance lat1 lon1 lat2 lon2 = calculate_distance lat2 lon2 lat1 lon1 := by
  simp only [calculate_distance]
  rw [hav_a_symm lat1 lon1 lat2 lon2]

/-- C7: the Haversine distance (Earth radius 6371 km) is zero between a
coordinate and itself and symmetric in its two coordinate arguments, over
exact real arithmetic. -/
theorem haversine_zero_symm :
    (∀ lat lon : ℝ, calculate_distance lat lon lat lon = 0) ∧
    (∀ lat1 lon1 lat2 lon2 : ℝ,
        calculate_distance lat1 lon1 lat2 lon2 = calculate_distance lat2 lon2 lat1 lon1) :=
  ⟨calculate_distance_self, calculate_distance_symm⟩

/-- C10: get_nearby_users skips the querying user, so no element of its
result carries the id of the querying user, even when the stored location
of that user is inside the radius. -/
theorem nearby_users_excludes_self (u : String) (lat lng r : ℝ) :
    ∀ locs : List (String × Loc),
      List.Forall (fun e : NearbyUser => e.user_id ≠ u) (get_nearby_users u lat lng r locs)
  | [] => trivial
  | p :: tl => by
    have ih := nearby_users_excludes_self u lat lng r tl
    simp only [get_nearby_users, List.foldr_cons] at ih ⊢
    by_cases h1 : p.1 = u
    · rw [if_pos h1]
      exact ih
    · rw [if_neg h1]
      by_cases h2 : calculate_distance lat lng p.2.latitude p.2.longitude ≤ r
      · rw [if_pos h2]
        exact (List.forall_cons _ _ _).mpr ⟨h1, ih⟩
      · rw [if_neg h2]
        exact ih

/-- Witness for C10: the own in-radius location of the querying user is not
returned. -/
theorem nearby_users_excludes_self_witness :
    List.Forall (fun e : NearbyUser => e.user_id ≠ "me")
      (get_nearby_users "me" 0 0 2 [("me", ⟨0, 0⟩)]) :=
  nearby_users_excludes_self "me" 0 0 2 [("me", ⟨0, 0⟩)]

theorem offersFiltered_le (dlat dlng maxd : ℝ) (mp : Option ℝ) :
    ∀ docs : List OfferDoc,
      List.Forall (fun o : RankedOffer => o.distance_to_destination ≤ maxd)
        (offersFiltered dlat dlng maxd mp docs)
  | [] => trivial
  | d :: tl => by
    have ih := offersFiltered_le dlat dlng maxd mp tl
    simp only [offersFiltered, List.foldr_cons] at ih ⊢
    by_cases h1 : calculate_distance dlat dlng d.destLat d.destLng > maxd
    · rw [if_pos h1]
      exact ih
    · rw [if_neg h1]
      by_cases h2 : priceExcluded mp d.price_per_seat
      · rw [if_pos h2]
        exact ih
      · rw [if_neg h2]
        exact (List.forall_cons _ _ _).mpr ⟨not_lt.mp h1, ih⟩

theorem get_ride_offers_sorted (dlat dlng maxd : ℝ) (mp : Option ℝ) (page limit : Nat)
    (docs : List OfferDoc) :
    List.Sorted (fun a b : RankedOffer =>
        a.distance_to_destination ≤ b.distance_to_destination)
      (get_ride_offers dlat dlng maxd mp page limit docs) := by
  simp only [get_ride_offers]
  haveI : IsTotal RankedOffer (fun a b : RankedOffer =>
      a.distance_to_destination ≤ b.distance_to_destination) :=
    ⟨fun a b => le_total _ _⟩
  haveI : IsTrans RankedOffer (fun a b : RankedOffer =>
      a.distance_to_destination ≤ b.distance_to_destination) :=
    ⟨fun a b c hab hbc => le_trans hab hbc⟩
  have hs := List.sorted_insertionSort
    (fun a b : RankedOffer => a.distance_to_destination ≤ b.distance_to_destination)
    (offersFiltered dlat dlng maxd mp docs)
  exact List.Pairwise.sublist ((List.take_sublist _ _).trans (List.drop_sublist _ _)) hs

theorem get_ride_offers_le (dlat dlng maxd : ℝ) (mp : Option ℝ) (page limit : Nat)
    (docs : List OfferDoc) :
    List.Forall (fun o : RankedOffer => o.distance_to_destination ≤ maxd)
      (get_ride_offers dlat dlng maxd mp page limit docs) := by
  rw [List.forall_iff_forall_mem]
  intro x hx
  simp only [get_ride_offers] at hx
  have hx2 : x ∈ (offersFiltered dlat dlng maxd mp docs).insertionSort
      (fun a b : RankedOffer => a.distance_to_destination ≤ b.distance_to_destination) :=
    List.mem_of_mem_drop (List.mem_of_mem_take hx)
  have hx3 : x ∈ offersFiltered dlat dlng maxd mp docs :=
    (List.mem_insertionSort _).mp hx2
  have hall := offersFiltered_le dlat dlng maxd mp docs
  rw [List.forall_iff_forall_mem] at hall
  exact hall x hx3

theorem get_nearby_users_le (u : String) (lat lng r : ℝ) :
    ∀ locs : List (String × Loc),
      List.Forall (fun e : NearbyUser => e.distance_km ≤ r) (get_nearby_users u lat lng r locs)
  | [] => trivial
  | p :: tl => by
    have ih := get_nearby_users_le u lat lng r tl
    simp only [get_nearby_users, List.foldr_cons] at ih ⊢
    by_cases h1 : p.1 = u
    · rw [if_pos h1]
      exact ih
    · rw [if_neg h1]
      by_cases h2 : calculate_distance lat lng p.2.latitude p.2.longitude ≤ r
      · rw [if_pos h2]
        exact (List.forall_cons _ _ _).mpr ⟨h2, ih⟩
      · rw [if_neg h2]
        exact ih

theorem requestsFiltered_le (dlat dlng maxd minp : ℝ) :
    ∀ docs : List RequestDoc,
      List.Forall (fun o : RankedRequest => o.distance_to_destination ≤ maxd)
        (requestsFiltered dlat dlng maxd minp docs)
  | [] => trivial
  | d :: tl => by
    have ih := requestsFiltered_le dlat dlng maxd minp tl
    simp only [requestsFiltered, List.foldr_cons] at ih ⊢
    by_cases h1 : calculate_distance dlat dlng d.destLat d.destLng > maxd
    · rw [if_pos h1]
      exact ih
    · rw [if_neg h1]
      by_cases h2 : d.max_price_per_seat < minp
      · rw [if_pos h2]
        exact ih
      · rw [if_neg h2]
        exact (List.forall_cons _ _ _).mpr ⟨not_lt.mp h1, ih⟩

theorem get_ride_requests_sorted (dlat dlng maxd minp : ℝ) (page limit : Nat)
    (docs : List RequestDoc) :
    List.Sorted (fun a b : RankedRequest =>
        a.distance_to_destination ≤ b.distance_to_destination)
      (get_ride_requests dlat dlng maxd minp page limit docs) := by
  simp only [get_ride_requests]
  haveI : IsTotal RankedRequest (fun a b : RankedRequest =>
      a.distance_to_destination ≤ b.distance_to_destination) :=
    ⟨fun a b => le_total _ _⟩
  haveI : IsTrans RankedRequest (fun a b : RankedRequest =>
      a.distance_to_destination ≤ b.distance_to_destination) :=
    ⟨fun a b c hab hbc => le_trans hab hbc⟩
  have hs := List.sorted_insertionSort
    (fun a b : RankedRequest => a.distance_to_destination ≤ b.distance_to_destination)
    (requestsFiltered dlat dlng maxd minp docs)
  exact List.Pairwise.sublist ((List.take_sublist _ _).trans (List.drop_sublist _ _)) hs

theorem get_ride_requests_le (dlat dlng maxd minp : ℝ) (page limit : Nat)
    (docs : List RequestDoc) :
    List.Forall (fun o : RankedRequest => o.distance_to_destination ≤ maxd)
      (get_ride_requests dlat dlng maxd minp page limit docs) := by
  rw [List.forall_iff_forall_mem]
  intro x hx
  simp only [get_ride_requests] at hx
  have hx2 : x ∈ (requestsFiltered dlat dlng maxd minp docs).insertionSort
      (fun a b : RankedRequest => a.distance_to_destination ≤ b.distance_to_destination) :=
    List.mem_of_mem_drop (List.mem_of_mem_take hx)
  have hx3 : x ∈ requestsFiltered dlat dlng maxd minp docs :=
    (List.mem_insertionSort _).mp hx2
  have hall := requestsFiltered_le dlat dlng maxd minp docs
  rw [List.forall_iff_forall_mem] at hall
  exact hall x hx3

theorem get_nearby_places_sorted (lat lng radius : ℝ) (features : List PlaceDoc) :
    List.Sorted (fun a b : NearbyPlace => a.distance ≤ b.distance)
      (get_nearby_places lat lng radius features) := by
  simp only [get_nearby_places]
  haveI : IsTotal NearbyPlace (fun a b : NearbyPlace => a.distance ≤ b.distance) :=
    ⟨fun a b => le_total _ _⟩
  haveI : IsTrans NearbyPlace (fun a b : NearbyPlace => a.distance ≤ b.distance) :=
    ⟨fun a b c hab hbc => le_trans hab hbc⟩
  have hs := List.sorted_insertionSort
    (fun a b : NearbyPlace => a.distance ≤ b.distance)
    (features.map (fun f =>
      (⟨f, calculate_distance lat lng f.latitude f.longitude⟩ : NearbyPlace)))
  exact List.Pairwise.sublist (List.take_sublist _ _) hs

/-- C8 amended: ride-offer and ride-request discovery (get_ride_offers,
get_ride_requests) return their page sorted ascending by computed
distance with every element within max_distance, and an empty candidate
set yields an empty list.  The nearby-user search (get_nearby_users)
filters to the radius and maps an empty candidate set to the empty list,
but returns the surviving entries in stored-map order without sorting
them by distance.  The nearby-place search (get_nearby_places) sorts
ascending and maps an empty candidate set to the empty list, but never
applies its radius parameter, so its elements are not distance-bounded. -/
theorem proximity_query_spec :
    (∀ (dlat dlng maxd : ℝ) (mp : Option ℝ) (page limit : Nat) (docs : List OfferDoc),
        List.Sorted (fun a b : RankedOffer =>
            a.distance_to_destination ≤ b.distance_to_destination)
          (get_ride_offers dlat dlng maxd mp page limit docs)) ∧
    (∀ (dlat dlng maxd : ℝ) (mp : Option ℝ) (page limit : Nat) (docs : List OfferDoc),
        List.Forall (fun o : RankedOffer => o.distance_to_destination ≤ maxd)
          (get_ride_offers dlat dlng maxd mp page limit docs)) ∧
    (∀ (dlat dlng maxd : ℝ) (mp : Option ℝ) (page limit : Nat),
        get_ride_offers dlat dlng maxd mp page limit [] = []) ∧
    (∀ (dlat dlng maxd minp : ℝ) (page limit : Nat) (docs : List RequestDoc),
        List.Sorted (fun a b : RankedRequest =>
            a.distance_to_destination ≤ b.distance_to_destination)
          (get_ride_requests dlat dlng maxd minp page limit docs)) ∧
    (∀ (dlat dlng maxd minp : ℝ) (page limit : Nat) (docs : List RequestDoc),
        List.Forall (fun o : RankedRequest => o.distance_to_destination ≤ maxd)
          (get_ride_requests dlat dlng maxd minp page limit docs)) ∧
    (∀ (dlat dlng maxd minp : ℝ) (page limit : Nat),
        get_ride_requests dlat dlng maxd minp page limit [] = []) ∧
    (∀ (u : String) (lat lng r : ℝ) (locs : List (String × Loc)),
        List.Forall (fun e : NearbyUser => e.distance_km ≤ r)
          (get_nearby_users u lat lng r locs)) ∧
    (∀ (u : String) (lat lng r : ℝ), get_nearby_users u lat lng r [] = []) ∧
    (∀ (lat lng radius : ℝ) (features : List PlaceDoc),
        List.Sorted (fun a b : NearbyPlace => a.distance ≤ b.distance)
          (get_nearby_places lat lng radius features)) ∧
    (∀ (lat lng radius : ℝ), get_nearby_places lat lng radius [] = []) := by
  refine ⟨get_ride_offers_sorted, get_ride_offers_le, ?_,
    get_ride_requests_sorted, get_ride_requests_le, ?_,
    get_nearby_users_le, ?_, get_nearby_places_sorted, ?_⟩
  · intro dlat dlng maxd mp page limit
    simp [get_ride_offers, offersFiltered]
  · intro dlat dlng maxd minp page limit
    simp [get_ride_requests, requestsFiltered]
  · intro u lat lng r
    simp [get_nearby_users]
  · intro lat lng radius
    simp [get_nearby_places]

theorem calculate_distance_antipodal :
    calculate_distance 0 0 0 180 = 6371 * Real.pi := by
  simp only [calculate_distance]
  have e0 : radians ((0 : ℝ) - 0) / 2 = 0 := by
    unfold radians
    ring
  have e1 : radians ((180 : ℝ) - 0) / 2 = Real.pi / 2 := by
    unfold radians
    ring
  have e2 : radians (0 : ℝ) = 0 := by
    unfold radians
    ring
  rw [e0, e1, e2]
  rw [Real.sin_zero, Real.cos_zero, Real.sin_pi_div_two]
  norm_num
  unfold atan2
  rw [if_neg (lt_irrefl (0 : ℝ)), if_neg (lt_irrefl (0 : ℝ)), if_pos one_pos]
  ring

theorem nearby_users_demo_eval :
    get_nearby_users "me" 0 0 40000 [("far", ⟨0, 180⟩), ("near", ⟨0, 0⟩)] =
      [⟨"far", ⟨0, 180⟩, calculate_distance 0 0 0 180⟩,
        ⟨"near", ⟨0, 0⟩, calculate_distance 0 0 0 0⟩] := by
  have hfar : calculate_distance 0 0 (Loc.latitude ⟨0, 180⟩) (Loc.longitude ⟨0, 180⟩) ≤ 40000 := by
    show calculate_distance 0 0 0 180 ≤ 40000
    rw [calculate_distance_antipodal]
    nlinarith [Real.pi_le_four, Real.pi_pos]
  have hnear : calculate_distance 0 0 (Loc.latitude ⟨0, 0⟩) (Loc.longitude ⟨0, 0⟩) ≤ 40000 := by
    show calculate_distance 0 0 0 0 ≤ 40000
    rw [calculate_distance_self]
    norm_num
  simp only [get_nearby_users, List.foldr_cons, List.foldr_nil]
  rw [if_neg (by decide : ¬ ("near" = "me")), if_pos hnear,
    if_neg (by decide : ¬ ("far" = "me")), if_pos hfar]

/-- Counterexample to C8, at two of the proximity queries.  The
nearby-user search does not sort its result by distance: with stored
locations far (0, 180) then near (0, 0) and reference coordinate (0, 0),
get_nearby_users returns the farther user first, so the output is not
ascending.  The nearby-place search never applies its supplied radius:
queried at (0, 0) with radius 1000 it still returns a place at distance
6371 * pi, far beyond that bound. -/
theorem proximity_query_counterexample :
    ¬ List.Sorted (fun a b : NearbyUser => a.distance_km ≤ b.distance_km)
      (get_nearby_users "me" 0 0 40000 [("far", ⟨0, 180⟩), ("near", ⟨0, 0⟩)]) ∧
    ¬ List.Forall (fun p : NearbyPlace => p.distance ≤ 1000)
      (get_nearby_places 0 0 1000 [⟨0, 180⟩]) := by
  constructor
  · rw [nearby_users_demo_eval]
    intro hs
    have h1 := (List.pairwise_cons.mp hs).1 _ (List.mem_singleton_self _)
    dsimp only at h1
    rw [calculate_distance_antipodal, calculate_distance_self] at h1
    nlinarith [Real.pi_pos]
  · intro hall
    have heval : get_nearby_places 0 0 1000 [⟨0, 180⟩] =
        [⟨⟨0, 180⟩, calculate_distance 0 0 0 180⟩] := by
      simp [get_nearby_places]
    rw [heval] at hall
    have h1 := ((List.forall_cons _ _ _).mp hall).1
    dsimp only at h1
    rw [calculate_distance_antipodal] at h1
    nlinarith [Real.pi_gt_three]
